import Mathlib

/-
Shallow embedding of the engine-analysis core of lazychess:
 - the UCI engine client (src/engine/uci.rs),
 - the analysis aggregator (src/ui/analysis.rs, AnalysisState),
 - the session controller (src/app.rs, App).

The subprocess transport is modelled explicitly: the child's stdin pipe is
a log of successfully written command lines (`sent`) together with a flag
`pipeBroken` saying whether a write would fail (broken pipe, i.e. the
subprocess exited); the reader-thread event channel is a queue of already
decoded events (`queue`); `process.wait()` calls are counted in
`waitCount`.  Rust `Result<()>` becomes `Except Unit Unit`.
-/

/-- `AnalysisInfo` from src/engine/uci.rs: analysis information decoded from
one `info` line.  All fields independently optional; `pv` may be empty. -/
structure AnalysisInfo where
  depth : Option Nat
  seldepth : Option Nat
  score_cp : Option Int
  score_mate : Option Int
  nodes : Option Nat
  nps : Option Nat
  time_ms : Option Nat
  multipv : Option Nat
  pv : List String
  hashfull : Option Nat
deriving DecidableEq

/-- Rust `#[derive(Default)]` for `AnalysisInfo`: every option `None`,
the principal variation empty. -/
instance : Inhabited AnalysisInfo :=
  ⟨⟨none, none, none, none, none, none, none, none, [], none⟩⟩

/-- `BestMove` from src/engine/uci.rs. -/
structure BestMove where
  best_move : String
  ponder : Option String
deriving DecidableEq

/-- `EngineEvent` from src/engine/uci.rs: messages from the engine to the UI. -/
inductive EngineEvent where
  | ready : EngineEvent
  | info : AnalysisInfo → EngineEvent
  | bestMove : BestMove → EngineEvent
  | error : String → EngineEvent
  | id : Option String → Option String → EngineEvent
  | option : String → EngineEvent
deriving DecidableEq

/-- Is the event a `BestMove` event?  (the `matches!` test in `try_recv`). -/
def EngineEvent.isBestMove : EngineEvent → Bool
  | EngineEvent.bestMove _ => true
  | _ => false

/-- `Engine` from src/engine/uci.rs.  `process`, `stdin` and `event_rx` are
modelled by `waitCount`, `pipeBroken`/`sent` and `queue` respectively. -/
structure Engine where
  is_analyzing : Bool
  name : Option String
  author : Option String
  pipeBroken : Bool
  sent : List String
  queue : List EngineEvent
  waitCount : Nat
deriving DecidableEq

/-- `Engine::send_command`: writes one line to the child's stdin and flushes;
fails with an Err when the pipe is broken, in which case nothing is written. -/
def Engine.send_command (e : Engine) (cmd : String) : Engine × Except Unit Unit :=
  if e.pipeBroken then (e, Except.error ())
  else ({ e with sent := e.sent ++ [cmd] }, Except.ok ())

/-- `Engine::set_option`. -/
def Engine.set_option (e : Engine) (n v : String) : Engine × Except Unit Unit :=
  e.send_command ("setoption name " ++ n ++ " value " ++ v)

/-- `Engine::set_position`: builds a single position command from the optional
FEN and the move list, and sends it. -/
def Engine.set_position (e : Engine) (fen : Option String) (moves : List String) :
    Engine × Except Unit Unit :=
  let pos_str := match fen with
    | some f => "position fen " ++ f
    | none => "position startpos"
  let cmd := if moves.isEmpty then pos_str
    else pos_str ++ " moves " ++ String.intercalate " " moves
  e.send_command cmd

/-- `Engine::go_infinite`: sets `is_analyzing` then sends `go infinite`. -/
def Engine.go_infinite (e : Engine) : Engine × Except Unit Unit :=
  Engine.send_command { e with is_analyzing := true } "go infinite"

/-- `Engine::go_depth`: sets `is_analyzing` then sends `go depth <n>`. -/
def Engine.go_depth (e : Engine) (depth : Nat) : Engine × Except Unit Unit :=
  Engine.send_command { e with is_analyzing := true } ("go depth " ++ toString depth)

/-- `Engine::stop`: if analyzing, sends `stop` and (when the send succeeded)
clears the flag; otherwise does nothing. -/
def Engine.stop (e : Engine) : Engine × Except Unit Unit :=
  if e.is_analyzing then
    match e.send_command "stop" with
    | (e1, Except.ok _) => ({ e1 with is_analyzing := false }, Except.ok ())
    | (e1, Except.error _) => (e1, Except.error ())
  else (e, Except.ok ())

/-- `Engine::try_recv`: non-blocking receive from the event channel; clears
`is_analyzing` when the received event is a `BestMove`. -/
def Engine.try_recv (e : Engine) : Engine × Option EngineEvent :=
  match e.queue with
  | [] => (e, none)
  | ev :: rest =>
    if ev.isBestMove then ({ e with queue := rest, is_analyzing := false }, some ev)
    else ({ e with queue := rest }, some ev)

/-- `Engine::new_game`. -/
def Engine.new_game (e : Engine) : Engine × Except Unit Unit :=
  e.send_command "ucinewgame"

/-- `Engine::quit`: sends `quit` and, when the send succeeded, waits for the
process to exit (ignoring wait failures); a failed send propagates the error
before the wait is reached. -/
def Engine.quit (e : Engine) : Engine × Except Unit Unit :=
  match e.send_command "quit" with
  | (e1, Except.ok _) => ({ e1 with waitCount := e1.waitCount + 1 }, Except.ok ())
  | (e1, Except.error _) => (e1, Except.error ())

/-- `impl Drop for Engine`: calls `quit`, discarding its result. -/
def Engine.dropEngine (e : Engine) : Engine :=
  (e.quit).fst

/-- `AnalysisState` from src/ui/analysis.rs. -/
structure AnalysisState where
  target_depth : Nat
  lines : List AnalysisInfo
  is_running : Bool
  is_paused : Bool
  nodes : Option Nat
  nps : Option Nat
  hashfull : Option Nat
deriving DecidableEq

/-- `AnalysisState::new`. -/
def AnalysisState.new (target_depth : Nat) : AnalysisState :=
  ⟨target_depth, [], false, false, none, none, none⟩

/-- The `while self.lines.len() <= line_idx { self.lines.push(default) }`
loop of `AnalysisState::update`: pad with default placeholders until the
length exceeds `idx`. -/
def growLines (lines : List AnalysisInfo) (idx : Nat) : List AnalysisInfo :=
  lines ++ List.replicate (idx + 1 - lines.length) (default : AnalysisInfo)

/-- `AnalysisState::update`: aggregate stats are overwritten whenever present;
the per-rank slot (index `multipv.unwrap_or(1).saturating_sub(1)`, which is
truncated subtraction on `Nat`) is written only when the PV is non-empty,
growing the array first. -/
def AnalysisState.update (s : AnalysisState) (info : AnalysisInfo) : AnalysisState :=
  let s1 := if info.nodes.isSome then { s with nodes := info.nodes } else s
  let s2 := if info.nps.isSome then { s1 with nps := info.nps } else s1
  let s3 := if info.hashfull.isSome then { s2 with hashfull := info.hashfull } else s2
  let line_idx := (info.multipv.getD 1) - 1
  if info.pv.isEmpty then s3
  else { s3 with lines := (growLines s3.lines line_idx).set line_idx info }

/-- `AnalysisState::clear`. -/
def AnalysisState.clear (s : AnalysisState) : AnalysisState :=
  { s with lines := [], nodes := none, nps := none, hashfull := none }

/-- `App` from src/app.rs, restricted to the state the session controller
touches: the optional engine, the analysis state, the configured depth
(`config.engine.depth`), the current position FEN (`game.to_fen()`) and
`last_fen`. -/
structure App where
  engine : Option Engine
  analysis : AnalysisState
  config_depth : Nat
  game_fen : String
  last_fen : String
deriving DecidableEq

/-- `App::start_analysis`: with no engine this is a no-op; otherwise stop the
current search, clear the aggregator, mark running and not paused, push the
position, record `last_fen`, and start a depth-bounded search.  Each `?` in
the Rust source propagates the first error, leaving later steps undone. -/
def App.start_analysis (a : App) : App × Except Unit Unit :=
  match a.engine with
  | none => (a, Except.ok ())
  | some eng =>
    match eng.stop with
    | (eng1, Except.error _) => ({ a with engine := some eng1 }, Except.error ())
    | (eng1, Except.ok _) =>
      let analysis1 := { a.analysis.clear with is_running := true, is_paused := false }
      match eng1.set_position (some a.game_fen) [] with
      | (eng2, Except.error _) =>
          ({ a with engine := some eng2, analysis := analysis1 }, Except.error ())
      | (eng2, Except.ok _) =>
        match eng2.go_depth a.config_depth with
        | (eng3, r) =>
            ({ a with
                engine := some eng3
                analysis := analysis1
                last_fen := a.game_fen }, r)

/-- `App::stop_analysis`: with no engine a no-op; otherwise stop the engine
and mark not running (skipped if the stop itself failed). -/
def App.stop_analysis (a : App) : App × Except Unit Unit :=
  match a.engine with
  | none => (a, Except.ok ())
  | some eng =>
    match eng.stop with
    | (eng1, Except.error _) => ({ a with engine := some eng1 }, Except.error ())
    | (eng1, Except.ok _) =>
        ({ a with
            engine := some eng1
            analysis := { a.analysis with is_running := false } }, Except.ok ())

/-- `App::toggle_pause`: when paused, resume by re-running `start_analysis`;
otherwise stop the search and set the paused flag (skipped on error). -/
def App.toggle_pause (a : App) : App × Except Unit Unit :=
  if a.analysis.is_paused then a.start_analysis
  else
    match a.stop_analysis with
    | (a1, Except.error _) => (a1, Except.error ())
    | (a1, Except.ok _) =>
        ({ a1 with analysis := { a1.analysis with is_paused := true } }, Except.ok ())

-- Concrete values used in the closed parts of the theorems below.

/-- The info decoded from `info depth 12 score cp 34 nodes 1000` (no pv). -/
def infoStatsOnly : AnalysisInfo :=
  { (default : AnalysisInfo) with depth := some 12, score_cp := some 34, nodes := some 1000 }

/-- An info for MultiPV rank 3 with a non-empty principal variation. -/
def infoRank3 : AnalysisInfo :=
  { (default : AnalysisInfo) with depth := some 9, multipv := some 3, pv := ["e2e4", "e7e5"] }

/-- A healthy engine that is currently analyzing, with nothing queued. -/
def engineAnalyzing : Engine :=
  ⟨true, none, none, false, [], [], 0⟩

/-- A healthy analyzing engine whose queue holds one decoded `bestmove e2e4`. -/
def engineWithBestMove : Engine :=
  ⟨true, none, none, false, [], [EngineEvent.bestMove ⟨"e2e4", none⟩], 0⟩

/-- An engine whose pipe is broken: every command write fails. -/
def engineBroken : Engine :=
  ⟨false, none, none, true, [], [], 0⟩

/-- The FEN of the standard initial position. -/
def startFen : String :=
  "rnbqkbnr/pppppppp/8/8/8/8/PPPPPPPP/RNBQKBNR w KQkq - 0 1"

/-- A session with no engine attached whose analysis is marked paused. -/
def appNoEnginePaused : App :=
  ⟨none, ⟨20, [], false, true, none, none, none⟩, 20, startFen, startFen⟩

/-- A session with an attached healthy analyzing engine, currently paused. -/
def appEnginePaused : App :=
  ⟨some engineAnalyzing, ⟨20, [], false, true, none, none, none⟩, 20, startFen, startFen⟩

-- Helper lemmas about the aggregator.

/-- The scalar-stat branches of `update` do not touch the line array:
the final line array depends only on the PV test. -/
theorem AnalysisState.update_lines (s : AnalysisState) (info : AnalysisInfo) :
    (s.update info).lines =
      if info.pv.isEmpty then s.lines
      else (growLines s.lines ((info.multipv.getD 1) - 1)).set
        ((info.multipv.getD 1) - 1) info := by
  cases hn : info.nodes <;> cases hp : info.nps <;> cases hh : info.hashfull <;>
    simp [AnalysisState.update, hn, hp, hh] <;> split <;> simp_all

/-- `update` overwrites the aggregate nodes stat exactly when present. -/
theorem AnalysisState.update_nodes (s : AnalysisState) (info : AnalysisInfo) :
    (s.update info).nodes = if info.nodes.isSome then info.nodes else s.nodes := by
  cases hn : info.nodes <;> cases hp : info.nps <;> cases hh : info.hashfull <;>
    cases hv : info.pv <;> simp [AnalysisState.update, hn, hp, hh, hv]

/-- `update` overwrites the aggregate nps stat exactly when present. -/
theorem AnalysisState.update_nps (s : AnalysisState) (info : AnalysisInfo) :
    (s.update info).nps = if info.nps.isSome then info.nps else s.nps := by
  cases hn : info.nodes <;> cases hp : info.nps <;> cases hh : info.hashfull <;>
    cases hv : info.pv <;> simp [AnalysisState.update, hn, hp, hh, hv]

/-- `update` overwrites the aggregate hashfull stat exactly when present. -/
theorem AnalysisState.update_hashfull (s : AnalysisState) (info : AnalysisInfo) :
    (s.update info).hashfull = if info.hashfull.isSome then info.hashfull else s.hashfull := by
  cases hn : info.nodes <;> cases hp : info.nps <;> cases hh : info.hashfull <;>
    cases hv : info.pv <;> simp [AnalysisState.update, hn, hp, hh, hv]

/-- Growing the line array yields length `max (length) (idx+1)`. -/
theorem growLines_length (l : List AnalysisInfo) (i : Nat) :
    (growLines l i).length = max l.length (i + 1) := by
  simp [growLines]
  omega

/-- String concatenation is associative. -/
theorem string_append_assoc (a b c : String) : a ++ b ++ c = a ++ (b ++ c) := by
  apply String.ext
  simp

/-- An info with multipv rank 0 (violating the rank ≥ 1 invariant) and a
non-empty principal variation. -/
def infoRank0 : AnalysisInfo :=
  { (default : AnalysisInfo) with multipv := some 0, pv := ["d2d4"] }

/-- C1: every `update(info)` overwrites each aggregate scalar stat (nodes,
nps, hashfull) exactly when the corresponding field is present, and writes
the per-rank line slot (index rank−1, rank defaulting to 1) only when the
PV is non-empty; in particular the info decoded from
`info depth 12 score cp 34 nodes 1000` applied to a freshly cleared
aggregator sets aggregate nodes to 1000 while the line array stays empty. -/
theorem claim_C1 (s : AnalysisState) (info : AnalysisInfo) :
    ((s.update info).nodes = if info.nodes.isSome then info.nodes else s.nodes)
  ∧ ((s.update info).nps = if info.nps.isSome then info.nps else s.nps)
  ∧ ((s.update info).hashfull = if info.hashfull.isSome then info.hashfull else s.hashfull)
  ∧ ((s.update info).lines =
      if info.pv.isEmpty then s.lines
      else (growLines s.lines ((info.multipv.getD 1) - 1)).set
        ((info.multipv.getD 1) - 1) info)
  ∧ (s.clear.update infoStatsOnly).nodes = some 1000
  ∧ (s.clear.update infoStatsOnly).lines = [] := by
  refine ⟨s.update_nodes info, s.update_nps info, s.update_hashfull info,
    s.update_lines info, ?_, ?_⟩
  · rw [AnalysisState.update_nodes]
    rfl
  · rw [AnalysisState.update_lines]
    rfl

/-- C3: the line array length is non-decreasing across every `update`, and a
rank-3 update with non-empty PV on an empty line array grows it to length 3,
with slots 0 and 1 holding the default placeholder and slot 2 the message. -/
theorem claim_C3 (s : AnalysisState) (info : AnalysisInfo) :
    s.lines.length ≤ (s.update info).lines.length
  ∧ ((AnalysisState.new 20).update infoRank3).lines =
      [default, default, infoRank3] := by
  constructor
  · rw [AnalysisState.update_lines]
    split
    · exact le_refl _
    · rw [List.length_set, growLines_length]
      exact le_max_left _ _
  · rfl

/-- C9 (implicit): `update` is total even for the invariant-violating rank 0:
for every info with `multipv = Some(0)` (or rank 1) and a non-empty PV, the
rank-to-index conversion saturates at 0 and the message lands in slot 0 —
the same slot as a rank-1 message — with no panic. -/
theorem claim_C9 (s : AnalysisState) (info : AnalysisInfo)
    (h0 : info.multipv = some 0 ∨ info.multipv = some 1) (hpv : info.pv ≠ []) :
    (s.update info).lines.head? = some info
  ∧ (s.update info).lines.length = max s.lines.length 1 := by
  have hidx : (info.multipv.getD 1) - 1 = 0 := by
    rcases h0 with h | h <;> simp [h]
  have hemp : info.pv.isEmpty = false := by
    cases hv : info.pv with
    | nil => exact absurd hv hpv
    | cons a as => rfl
  have hlines : (s.update info).lines = (growLines s.lines 0).set 0 info := by
    rw [AnalysisState.update_lines, hidx]
    simp [hemp]
  have hne : growLines s.lines 0 ≠ [] := by
    cases s.lines <;> simp [growLines]
  constructor
  · rw [hlines]
    cases hg : growLines s.lines 0 with
    | nil => exact absurd hg hne
    | cons a as => rfl
  · rw [hlines, List.length_set, growLines_length]

/-- Witness for C9 at a concrete rank-0 message on a fresh aggregator. -/
theorem claim_C9_witness :
    ((AnalysisState.new 20).update infoRank0).lines.head? = some infoRank0
  ∧ ((AnalysisState.new 20).update infoRank0).lines.length =
      max (AnalysisState.new 20).lines.length 1 :=
  claim_C9 (AnalysisState.new 20) infoRank0 (Or.inl rfl) (by decide)

/-- C4: `stop` is idempotent with respect to commands sent: when analyzing it
sends exactly one stop command and clears the flag; when not analyzing it is
a no-op; two consecutive `stop` calls send exactly one stop in total. -/
theorem claim_C4 (e : Engine) (h : e.pipeBroken = false) :
    (e.is_analyzing = true →
        (e.stop).fst.sent = e.sent ++ ["stop"] ∧ (e.stop).fst.is_analyzing = false)
  ∧ (e.is_analyzing = false → (e.stop).fst = e ∧ (e.stop).snd = Except.ok ())
  ∧ ((e.stop).fst.stop).fst.sent =
      e.sent ++ (if e.is_analyzing then ["stop"] else []) := by
  cases ha : e.is_analyzing <;>
    simp [Engine.stop, Engine.send_command, h, ha]

/-- Witness for C4: a healthy analyzing engine. -/
theorem claim_C4_witness :
    (engineAnalyzing.stop).fst.sent = engineAnalyzing.sent ++ ["stop"]
  ∧ (engineAnalyzing.stop).fst.is_analyzing = false :=
  (claim_C4 engineAnalyzing rfl).1 rfl

/-- C5: `try_recv` returns the next queued event if any and nothing
otherwise, leaving the state untouched on an empty queue; a received
`BestMove` clears the analyzing flag; concretely, receiving the queued
`bestmove e2e4` while analyzing flips the flag to false and a following
`try_recv` on the now-empty queue returns nothing and changes nothing. -/
theorem claim_C5 (e : Engine) :
    (e.queue = [] → e.try_recv = (e, none))
  ∧ (∀ ev rest, e.queue = ev :: rest →
        (e.try_recv).snd = some ev
      ∧ (e.try_recv).fst.queue = rest
      ∧ (e.try_recv).fst.sent = e.sent
      ∧ (e.try_recv).fst.is_analyzing =
          (if ev.isBestMove then false else e.is_analyzing))
  ∧ ((engineWithBestMove.try_recv).snd = some (EngineEvent.bestMove ⟨"e2e4", none⟩)
      ∧ (engineWithBestMove.try_recv).fst.is_analyzing = false
      ∧ (engineWithBestMove.try_recv).fst.try_recv =
          ((engineWithBestMove.try_recv).fst, none)) := by
  constructor
  · intro hq
    simp [Engine.try_recv, hq]
  constructor
  · intro ev rest hq
    cases hb : ev.isBestMove <;> simp [Engine.try_recv, hq, hb]
  · exact ⟨rfl, rfl, rfl⟩

/-- Witness for C5: the queued best-move event is returned. -/
theorem claim_C5_witness :
    (engineWithBestMove.try_recv).snd = some (EngineEvent.bestMove ⟨"e2e4", none⟩) :=
  ((claim_C5 engineWithBestMove).2.1 (EngineEvent.bestMove ⟨"e2e4", none⟩) [] rfl).1

/-- C6: `go_depth` and `go_infinite` set the analyzing flag and send their
search-start command unconditionally — no mutual exclusion; two `go depth 10`
calls without an intervening stop send two commands, in call order. -/
theorem claim_C6 (e : Engine) (h : e.pipeBroken = false) (d : Nat) :
    (e.go_depth d).fst.is_analyzing = true
  ∧ (e.go_depth d).fst.sent = e.sent ++ ["go depth " ++ toString d]
  ∧ (e.go_infinite).fst.is_analyzing = true
  ∧ (e.go_infinite).fst.sent = e.sent ++ ["go infinite"]
  ∧ ((e.go_depth 10).fst.go_depth 10).fst.sent =
      e.sent ++ ["go depth 10", "go depth 10"]
  ∧ ((e.go_depth 10).fst.go_depth 10).snd = Except.ok () := by
  have h10 : "go depth " ++ toString (10 : Nat) = "go depth 10" := rfl
  simp [Engine.go_depth, Engine.go_infinite, Engine.send_command, h, h10]

/-- Witness for C6 on a healthy engine. -/
theorem claim_C6_witness :
    (engineAnalyzing.go_depth 7).fst.is_analyzing = true :=
  (claim_C6 engineAnalyzing rfl 7).1

/-- C7: `set_position` sends exactly one command — `position startpos` when
the FEN is omitted, `position fen <FEN>` when given — with
` moves <m1> <m2> ...` appended, in order, exactly when the move list is
non-empty. -/
theorem claim_C7 (e : Engine) (h : e.pipeBroken = false)
    (fen : Option String) (moves : List String) :
    (e.set_position fen moves).fst.sent =
      e.sent ++ [(match fen with
                  | some f => "position fen " ++ f
                  | none => "position startpos") ++
                 (if moves.isEmpty then ""
                  else " moves " ++ String.intercalate " " moves)]
  ∧ (e.set_position fen moves).snd = Except.ok () := by
  cases fen <;> cases hm : moves.isEmpty <;>
    simp [Engine.set_position, Engine.send_command, h, hm, ← string_append_assoc]

/-- Witness for C7: startpos with two moves appended. -/
theorem claim_C7_witness :
    (engineAnalyzing.set_position none ["e2e4", "e7e5"]).fst.sent =
      ["position startpos moves e2e4 e7e5"]
  ∧ (engineAnalyzing.set_position none ["e2e4", "e7e5"]).snd = Except.ok () :=
  claim_C7 engineAnalyzing rfl none ["e2e4", "e7e5"]

/-- C8 counterexample: on an engine whose pipe is broken, `quit` returns the
write error without waiting on the process — the claim that the wait happens
on every `quit` invocation, including failed writes, is false. -/
theorem claim_C8_counterexample :
    (engineBroken.quit).snd = Except.error ()
  ∧ (engineBroken.quit).fst.waitCount = 0
  ∧ (engineBroken.quit).fst.sent = [] :=
  ⟨rfl, rfl, rfl⟩

/-- C8 amended: `quit` sends the quit command and, when the write succeeds,
waits for process exit (ignoring wait failures); when the write fails, the
error is returned without waiting.  Drop invokes `quit`, discarding its
result. -/
theorem claim_C8_amended (e : Engine) :
    (e.pipeBroken = false →
        (e.quit).fst.sent = e.sent ++ ["quit"]
      ∧ (e.quit).fst.waitCount = e.waitCount + 1
      ∧ (e.quit).snd = Except.ok ())
  ∧ (e.pipeBroken = true →
        (e.quit).fst = e ∧ (e.quit).snd = Except.error ())
  ∧ Engine.dropEngine e = (e.quit).fst := by
  cases hb : e.pipeBroken <;>
    simp [Engine.quit, Engine.send_command, Engine.dropEngine, hb]

/-- Witness for C8 amended on a healthy engine. -/
theorem claim_C8_witness :
    (engineAnalyzing.quit).fst.sent = engineAnalyzing.sent ++ ["quit"]
  ∧ (engineAnalyzing.quit).fst.waitCount = engineAnalyzing.waitCount + 1
  ∧ (engineAnalyzing.quit).snd = Except.ok () :=
  (claim_C8_amended engineAnalyzing).1 rfl

/-- C10 (implicit): the go operations set the analyzing flag before the
command write and never roll it back: whenever they return an IoError the
flag is nonetheless true afterwards. -/
theorem claim_C10 (e : Engine) (d : Nat) :
    ((e.go_depth d).snd = Except.error () → (e.go_depth d).fst.is_analyzing = true)
  ∧ ((e.go_infinite).snd = Except.error () → (e.go_infinite).fst.is_analyzing = true) := by
  cases hb : e.pipeBroken <;>
    simp [Engine.go_depth, Engine.go_infinite, Engine.send_command, hb]

/-- Witness for C10: a broken-pipe engine really fails the write, and the
flag is still set. -/
theorem claim_C10_witness :
    (engineBroken.go_depth 10).fst.is_analyzing = true :=
  (claim_C10 engineBroken 10).1 rfl

/-- C2 counterexample: in the session state with no engine attached and the
paused flag set, `toggle_pause` is a complete no-op — `start_analysis` does
nothing without an engine — so `is_paused` stays true, refuting the claim
that after the call `is_paused` is false for every session state. -/
theorem claim_C2_counterexample :
    appNoEnginePaused.analysis.is_paused = true
  ∧ (appNoEnginePaused.toggle_pause).fst.analysis.is_paused = true
  ∧ (appNoEnginePaused.toggle_pause).fst = appNoEnginePaused :=
  ⟨rfl, rfl, rfl⟩

/-- C2 amended: with an engine attached and a working pipe, `toggle_pause`
when paused re-invokes `start_analysis`, which clears the paused flag and
marks running; when not paused it stops the search (the engine stops
analyzing) and sets the paused flag.  With no engine attached, toggling when
not paused still sets the paused flag, but toggling when paused is a no-op
and the flag stays set. -/
theorem claim_C2_amended (a : App) :
    (∀ e, a.engine = some e → e.pipeBroken = false →
        (a.analysis.is_paused = true →
            (a.toggle_pause).fst.analysis.is_paused = false
          ∧ (a.toggle_pause).fst.analysis.is_running = true)
      ∧ (a.analysis.is_paused = false →
            (a.toggle_pause).fst.analysis.is_paused = true
          ∧ (a.toggle_pause).fst.analysis.is_running = false
          ∧ (a.toggle_pause).fst.engine = some (e.stop).fst
          ∧ ((e.stop).fst).is_analyzing = false))
  ∧ (a.engine = none →
        (a.analysis.is_paused = false →
            (a.toggle_pause).fst.analysis.is_paused = true)
      ∧ (a.analysis.is_paused = true → (a.toggle_pause).fst = a)) := by
  constructor
  · intro e he hpb
    constructor
    · intro hp
      have ht : a.toggle_pause = a.start_analysis := by
        simp [App.toggle_pause, hp]
      rw [ht]
      cases ha : e.is_analyzing <;>
        simp [App.start_analysis, he, Engine.stop, Engine.send_command,
              Engine.set_position, Engine.go_depth, hpb, ha, AnalysisState.clear]
    · intro hp
      cases ha : e.is_analyzing <;>
        simp [App.toggle_pause, hp, App.stop_analysis, he, Engine.stop,
              Engine.send_command, hpb, ha]
  · intro he
    constructor
    · intro hp
      simp [App.toggle_pause, hp, App.stop_analysis, he]
    · intro hp
      simp [App.toggle_pause, hp, App.start_analysis, he]

/-- Witness for C2 amended: a paused session with a healthy analyzing engine
resumes, clearing the paused flag. -/
theorem claim_C2_witness :
    (appEnginePaused.toggle_pause).fst.analysis.is_paused = false
  ∧ (appEnginePaused.toggle_pause).fst.analysis.is_running = true :=
  ((claim_C2_amended appEnginePaused).1 engineAnalyzing rfl rfl).1 rfl
